import Mathlib

/-!
Verification of the pgan repository training-loop and normalization code.

Numbers are modelled as exact rationals (the source computes with floats);
numpy arrays of scalars are lists of rationals; the TensorFlow session,
checkpointing and logging side effects are dropped, and the control flow
that decides what is computed at each epoch and minibatch is translated
directly from the Python source.
-/

/-- A Python run-time error surfaced by the embedded code. -/
inductive PyError where
  | nameError (name : String)
  | keyError (key : String)
deriving DecidableEq, Repr

/-- MultiVariable (pgan.models): an ordered mapping from variable name to a
value; modelled as an association list from names to scalars. -/
abbrev MultiVariable := List (String × ℚ)

/-- Python subscript `mv[name]`: raises KeyError when the name is absent. -/
def MultiVariable.getItem (mv : MultiVariable) (name : String) : Except PyError ℚ :=
  match mv.lookup name with
  | some v => Except.ok v
  | none => Except.error (PyError.keyError name)

/-- Normalizer (src/pgan/data/normalizers.py, lines 6-40): affine scaling of
a scalar to the range [0, 1] when pos is true, else to [-1, 1]. -/
structure Normalizer where
  xmin : ℚ
  xmax : ℚ
  pos : Bool
deriving DecidableEq, Repr

/-- self.denom = xmax - xmin (normalizers.py line 15). -/
def Normalizer.denom (n : Normalizer) : ℚ := n.xmax - n.xmin

/-- Normalizer.forward (normalizers.py lines 24-31). -/
def Normalizer.forward (n : Normalizer) (x : ℚ) : ℚ :=
  if n.pos then (x - n.xmin) / n.denom
  else 2 * (x - n.xmin) / n.denom - 1

/-- Normalizer.inverse (normalizers.py lines 33-40). -/
def Normalizer.inverse (n : Normalizer) (xn : ℚ) : ℚ :=
  if n.pos then n.denom * xn + n.xmin
  else 1/2 * n.denom * (xn + 1) + n.xmin

/-- MultiNormalizer (normalizers.py lines 43-88): an ordered mapping from
variable name to Normalizer. -/
structure MultiNormalizer where
  normalizers : List (String × Normalizer)

/-- Name resolution inside the body of MultiNormalizer.inverse: the only
name in scope that holds a MultiVariable is the parameter `multi_var`
(the module globals hold no MultiVariable either). Reading any other name
raises NameError, exactly as in CPython. -/
def MultiNormalizer.inverseScope (multi_var : MultiVariable) (name : String) :
    Except PyError MultiVariable :=
  if name = "multi_var" then Except.ok multi_var
  else Except.error (PyError.nameError name)

/-- MultiNormalizer.forward (normalizers.py lines 60-73): builds a new
MultiVariable by applying each registered normalizer to the entry of the
same name in the argument. -/
def MultiNormalizer.forward (mn : MultiNormalizer) (multi_var : MultiVariable) :
    Except PyError MultiVariable :=
  mn.normalizers.foldlM
    (fun out p => do
      let v ← multi_var.getItem p.1
      pure (out ++ [(p.1, p.2.forward v)]))
    ([] : MultiVariable)

/-- MultiNormalizer.inverse (normalizers.py lines 75-88). The loop body is
`out[varname] = normalizer.inverse(mult_var[varname])`: the subscripted name
in the source is `mult_var`, not the parameter `multi_var`, so each
iteration resolves the name `mult_var` through the scope of the function. -/
def MultiNormalizer.inverse (mn : MultiNormalizer) (multi_var : MultiVariable) :
    Except PyError MultiVariable :=
  mn.normalizers.foldlM
    (fun out p => do
      let mv ← MultiNormalizer.inverseScope multi_var "mult_var"
      let v ← mv.getItem p.1
      pure (out ++ [(p.1, p.2.inverse v)]))
    ([] : MultiVariable)

/-- Ceiling division on naturals, modelling `int(np.ceil(a / b))` for
non-negative integer operands (exact: the source divides machine floats). -/
def ceil_div (a b : ℕ) : ℕ := (a + b - 1) / b

/-- PINN.train (src/pgan/dynamics/navierstokes/physics.py line 84):
number of collocation minibatches. -/
def PINN.numBatches (n_train batch_size : ℕ) : ℕ := ceil_div n_train batch_size

/-- PINN.train (physics.py line 88): derived boundary batch size. -/
def PINN.boundaryBatch (n_boundary n_train batch_size : ℕ) : ℕ :=
  ceil_div n_boundary (PINN.numBatches n_train batch_size)

/-- PINN.train (physics.py line 89): number of boundary batches implied by
the derived boundary batch size. -/
def PINN.numBatchesBoundary (n_boundary n_train batch_size : ℕ) : ℕ :=
  ceil_div n_boundary (PINN.boundaryBatch n_boundary n_train batch_size)

/-- GAN.train (src/pgan/networks/generate.py line 155): number of
collocation minibatches per epoch. -/
def GAN.numBatches (n_train batch_size : ℕ) : ℕ := ceil_div n_train batch_size

/-- GAN.train (generate.py lines 175-192), projected to the discriminator
optimizer: the inner minibatch loop `for b in range(n_batches)` runs the
discriminator training op exactly when `epoch % dskip == 0`. The list
collects the (epoch, batch) pairs at which the op runs within one epoch. -/
def GAN.discStepEpochEvents (dskip n_batches epoch : ℕ) : List (ℕ × ℕ) :=
  (List.range n_batches).filterMap
    (fun b => if epoch % dskip = 0 then some (epoch, b) else none)

/-- GAN.train (generate.py lines 164-195): the full schedule of
discriminator optimizer steps over `for epoch in range(n_epochs)`. -/
def GAN.discStepSchedule (n_epochs n_batches dskip : ℕ) : List (ℕ × ℕ) :=
  (List.range n_epochs).flatMap (GAN.discStepEpochEvents dskip n_batches)

/-- numpy fancy indexing `A[ind]` for a 1-d array and an integer index
array (indices assumed in range, as produced by np.random.permutation). -/
def fancyIndex (A : List ℚ) (ind : List ℕ) : List ℚ :=
  ind.map (fun i => A.getD i 0)

/-- The coupled per-point arrays of the DeepHPM training set
(physics.py lines 261-262: attributes xcoll, ycoll, ucoll, vcoll, wcoll,
tcoll). -/
structure HPMTrainSet where
  xcoll : List ℚ
  ycoll : List ℚ
  ucoll : List ℚ
  vcoll : List ℚ
  wcoll : List ℚ
  tcoll : List ℚ

/-- DeepHPM.train (physics.py lines 259-262): one epoch draws a single
permutation `ind` and fancy-indexes every coupled array with that same
index sequence. -/
def DeepHPM.shuffleEpoch (train : HPMTrainSet) (ind : List ℕ) : HPMTrainSet :=
  { xcoll := fancyIndex train.xcoll ind
    ycoll := fancyIndex train.ycoll ind
    ucoll := fancyIndex train.ucoll ind
    vcoll := fancyIndex train.vcoll ind
    wcoll := fancyIndex train.wcoll ind
    tcoll := fancyIndex train.tcoll ind }

/-- GAN.train (generate.py lines 166-169): one epoch draws a single
permutation `ind` and fancy-indexes both collocation arrays with it. -/
def GAN.shuffleColl (Xcoll Tcoll : List ℚ) (ind : List ℕ) : List ℚ × List ℚ :=
  (fancyIndex Xcoll ind, fancyIndex Tcoll ind)

/-- tf.reduce_mean over a 1-d tensor (division by zero yields zero for the
empty tensor, as in Lean division; the source never feeds empty batches). -/
def reduce_mean (xs : List ℚ) : ℚ := xs.sum / xs.length

/-- GAN.build (generate.py lines 76-79), with the pointwise map of
tf.nn.sigmoid_cross_entropy_with_logits abstracted as `sce logits label`
(an external TensorFlow collaborator): the REAL-data logits are scored
against `tf.zeros_like`, label 0. -/
def GAN.discLossReal (sce : ℚ → ℚ → ℚ) (disc_logits_real : List ℚ) : ℚ :=
  reduce_mean (disc_logits_real.map (fun l => sce l 0))

/-- GAN.build (generate.py lines 80-83): the GENERATED-data logits are
scored against `tf.ones_like`, label 1. -/
def GAN.discLossFake (sce : ℚ → ℚ → ℚ) (disc_logits_fake : List ℚ) : ℚ :=
  reduce_mean (disc_logits_fake.map (fun l => sce l 1))

/-- GAN.build (generate.py line 84): self.disc_loss. -/
def GAN.discLoss (sce : ℚ → ℚ → ℚ) (disc_logits_real disc_logits_fake : List ℚ) : ℚ :=
  1/2 * (GAN.discLossReal sce disc_logits_real + GAN.discLossFake sce disc_logits_fake)

/-- GAN.build (generate.py lines 88-91): the generator adversarial loss
scores the fake-branch logits against label 0. -/
def GAN.genAdvLoss (sce : ℚ → ℚ → ℚ) (disc_logits_fake : List ℚ) : ℚ :=
  reduce_mean (disc_logits_fake.map (fun l => sce l 0))

/-- Modelled from the spec: the textbook GAN discriminator loss the spec
compares against, in which real observations carry label 1 and generated
observations carry label 0, averaged with the same 0.5 factor. -/
def textbookDiscLoss (sce : ℚ → ℚ → ℚ) (real_logits fake_logits : List ℚ) : ℚ :=
  1/2 * (reduce_mean (real_logits.map (fun l => sce l 1))
    + reduce_mean (fake_logits.map (fun l => sce l 0)))

/-- The feed dictionary of one GAN training step (generate.py lines
158-179): which data is bound to each placeholder. -/
structure GANFeed where
  Xb : List ℚ
  Tb : List ℚ
  Ub : List ℚ
  Xcoll : List ℚ
  Tcoll : List ℚ
deriving DecidableEq, Repr

/-- GAN.train: collocation arrays at the end of epoch e, obtained by
folding the per-epoch reassignment `Xcoll_train = Xcoll_train[ind]`,
`Tcoll_train = Tcoll_train[ind]` (generate.py lines 167-169) over the
permutations drawn so far. -/
def GAN.collocAfterEpochs (Xc Tc : List ℚ) : List (List ℕ) → List ℚ × List ℚ
  | [] => (Xc, Tc)
  | ind :: rest => GAN.collocAfterEpochs (fancyIndex Xc ind) (fancyIndex Tc ind) rest

/-- GAN.train (generate.py lines 158-179): the feed dictionary used at
minibatch b of an epoch whose (current) collocation arrays are
Xcoll_train, Tcoll_train. The boundary entries were set once before the
epoch loop to the full arrays; only the two collocation entries are
re-bound per minibatch, to the slice [start : start + batch_size] with
start = b * batch_size. -/
def GAN.feedForBatch (Xb_train Tb_train Ub_train Xcoll_train Tcoll_train : List ℚ)
    (batch_size b : ℕ) : GANFeed :=
  { Xb := Xb_train
    Tb := Tb_train
    Ub := Ub_train
    Xcoll := (Xcoll_train.drop (b * batch_size)).take batch_size
    Tcoll := (Tcoll_train.drop (b * batch_size)).take batch_size }

/-- A tf.train.AdamOptimizer.minimize step restricted to `var_list`
(an external TensorFlow collaborator): variables are named, the step
rewrites exactly the variables in var_list by some update function and
leaves every other variable untouched. -/
def optimizerStep (var_list : List String) (upd : String → ℚ → ℚ)
    (store : String → ℚ) : String → ℚ :=
  fun v => if v ∈ var_list then upd v (store v) else store v

/-- The trainable-variable sets in scope in PINN.build: the solution
network owns one set of named variables and the supplied physics model
another. -/
structure PINNVars where
  solutionTrainable : List String
  physicsTrainable : List String

/-- PINN.build (physics.py lines 66-69): the single training op minimizes
the total loss with `var_list=self.solution_net.trainable_variables`. -/
def PINN.trainOp (vars : PINNVars) (upd : String → ℚ → ℚ) :
    (String → ℚ) → (String → ℚ) :=
  optimizerStep vars.solutionTrainable upd

/-- PINN.train: the variable store after a sequence of training steps,
each an application of the training op with that step's gradient update. -/
def PINN.runSteps (vars : PINNVars) (upds : List (String → ℚ → ℚ))
    (store : String → ℚ) : String → ℚ :=
  upds.foldl (fun s u => PINN.trainOp vars u s) store

/-- GAN.train (generate.py lines 189-199): the Python variable `disc_loss`
as it stands when row `epoch` of the losses array is written. It is
reassigned to the epoch's mean discriminator loss (abstracted as
`discMean epoch`) only when `epoch % dskip == 0`, and otherwise keeps the
value carried over from the previous epoch. Epoch 0 reassigns whenever
dskip is positive, so the default 0 of the base case is never read then. -/
def GAN.discLossAt (discMean : ℕ → ℚ) (dskip : ℕ) : ℕ → ℚ
  | 0 => if 0 % dskip = 0 then discMean 0 else 0
  | e + 1 => if (e + 1) % dskip = 0 then discMean (e + 1) else GAN.discLossAt discMean dskip e

/-- GAN.train (generate.py lines 163, 210): the discriminator-loss column
of the returned losses array, row e holding the value of `disc_loss` at
the end of epoch e. -/
def GAN.lossRowsDisc (discMean : ℕ → ℚ) (dskip n_epochs : ℕ) : List ℚ :=
  (List.range n_epochs).map (GAN.discLossAt discMean dskip)

/-- np.squeeze: removes every axis of extent 1 from a shape. -/
def npSqueeze (shape : List ℕ) : List ℕ := shape.filter (fun d => d != 1)

/-- numpy assignment broadcasting on reversed (trailing-axis-first)
shapes: the source may have at most as many axes as the target, and each
trailing source axis must equal the target axis or be 1. -/
def broadcastAssignRev : List ℕ → List ℕ → Bool
  | [], _ => true
  | _ :: _, [] => false
  | a :: s, b :: t => (a == b || a == 1) && broadcastAssignRev s t

/-- Whether numpy accepts the assignment `target[...] = source` for the
given source and target shapes. -/
def broadcastAssign (src tgt : List ℕ) : Bool :=
  broadcastAssignRev src.reverse tgt.reverse

/-- GAN.predict (generate.py lines 219-231): the two per-sample
assignments. U and z are allocated with rows of shape (X.size,); the
session returns Ui of shape (n_points, 1) (the generator output column)
and zi of shape (n_points, latent_dim) (the sampled latent batch from
build lines 98-103); each is squeezed and assigned into row i. -/
def GAN.predictAssignOK (n_points latent_dim : ℕ) : Bool :=
  broadcastAssign (npSqueeze [n_points, 1]) [n_points] &&
  broadcastAssign (npSqueeze [n_points, latent_dim]) [n_points]

theorem ceil_div_le_iff (a b m : ℕ) (hb : 0 < b) : ceil_div a b ≤ m ↔ a ≤ b * m := by
  unfold ceil_div
  rw [Nat.div_le_iff_le_mul_add_pred hb]
  omega

theorem le_mul_ceil_div (a b : ℕ) (hb : 0 < b) : a ≤ b * ceil_div a b :=
  (ceil_div_le_iff a b (ceil_div a b) hb).mp le_rfl

theorem ceil_div_pos (a b : ℕ) (ha : 0 < a) (hb : 0 < b) : 0 < ceil_div a b :=
  Nat.div_pos (by omega) hb

/-- C1: MultiNormalizer.inverse never reads its argument: with at least one
registered normalizer, the first loop iteration resolves the undefined name
`mult_var` and the call fails with a NameError, for every argument. -/
theorem multiNormalizer_inverse_ignores_argument (mn : MultiNormalizer)
    (hne : mn.normalizers ≠ []) (multi_var : MultiVariable) :
    mn.inverse multi_var = Except.error (PyError.nameError "mult_var") := by
  obtain ⟨p, rest, hsplit⟩ := List.exists_cons_of_ne_nil hne
  unfold MultiNormalizer.inverse
  rw [hsplit]
  rfl

theorem multiNormalizer_inverse_ignores_argument_witness :
    ({ normalizers := [("a", { xmin := 0, xmax := 1, pos := true })] } : MultiNormalizer).normalizers ≠ [] ∧
    MultiNormalizer.inverse { normalizers := [("a", { xmin := 0, xmax := 1, pos := true })] } [("a", 1/2)]
      = Except.error (PyError.nameError "mult_var") :=
  ⟨by decide, multiNormalizer_inverse_ignores_argument _ (by decide) _⟩

/-- C4: for every Normalizer with xmax > xmin and every rational x,
inverse is a left inverse of forward, for both settings of pos (exact,
over rational arithmetic). -/
theorem normalizer_round_trip (n : Normalizer) (h : n.xmin < n.xmax) (x : ℚ) :
    n.inverse (n.forward x) = x := by
  have hd : n.denom ≠ 0 := sub_ne_zero.mpr (ne_of_gt h)
  cases hp : n.pos
  all_goals
    simp only [Normalizer.forward, Normalizer.inverse, hp, if_true, if_false, Bool.false_eq_true]
  all_goals
    field_simp
  ring

theorem normalizer_round_trip_witness :
    ({ xmin := 0, xmax := 10, pos := false } : Normalizer).xmin < ({ xmin := 0, xmax := 10, pos := false } : Normalizer).xmax ∧
    ({ xmin := 0, xmax := 10, pos := false } : Normalizer).inverse
      (({ xmin := 0, xmax := 10, pos := false } : Normalizer).forward 5) = 5 :=
  ⟨by decide, normalizer_round_trip { xmin := 0, xmax := 10, pos := false } (by decide) 5⟩

/-- C2 counterexample: with n_boundary = 5, n_collocation = 4,
batch_size = 1, the derived boundary batch count is 3 while the
collocation batch count is 4 - they differ. -/
theorem pinn_batch_sync_counterexample :
    PINN.numBatchesBoundary 5 4 1 ≠ PINN.numBatches 4 1 := by decide

/-- C2 amended: for positive n_boundary, n_collocation and batch_size, the
derived boundary batch count is at most (not always equal to) the
collocation batch count, and n_batches slices of the derived boundary
batch size still cover the whole boundary set. -/
theorem pinn_boundary_batches_le (n_boundary n_train batch_size : ℕ)
    (hb : 0 < n_boundary) (hc : 0 < n_train) (hs : 0 < batch_size) :
    PINN.numBatchesBoundary n_boundary n_train batch_size
        ≤ PINN.numBatches n_train batch_size ∧
    n_boundary ≤ PINN.boundaryBatch n_boundary n_train batch_size
        * PINN.numBatches n_train batch_size := by
  have hnb : 0 < PINN.numBatches n_train batch_size := ceil_div_pos _ _ hc hs
  have hbb : 0 < PINN.boundaryBatch n_boundary n_train batch_size :=
    ceil_div_pos _ _ hb hnb
  have hcover := le_mul_ceil_div n_boundary (PINN.numBatches n_train batch_size) hnb
  constructor
  · rw [PINN.numBatchesBoundary,
      ceil_div_le_iff _ _ _ hbb]
    calc n_boundary
        ≤ PINN.numBatches n_train batch_size
            * ceil_div n_boundary (PINN.numBatches n_train batch_size) := hcover
      _ = PINN.boundaryBatch n_boundary n_train batch_size
            * PINN.numBatches n_train batch_size := Nat.mul_comm _ _
  · calc n_boundary
        ≤ PINN.numBatches n_train batch_size
            * PINN.boundaryBatch n_boundary n_train batch_size := hcover
      _ = PINN.boundaryBatch n_boundary n_train batch_size
            * PINN.numBatches n_train batch_size := Nat.mul_comm _ _

theorem pinn_boundary_batches_le_witness :
    ((0 : ℕ) < 5 ∧ (0 : ℕ) < 4 ∧ (0 : ℕ) < 1) ∧
    (PINN.numBatchesBoundary 5 4 1 ≤ PINN.numBatches 4 1 ∧
      5 ≤ PINN.boundaryBatch 5 4 1 * PINN.numBatches 4 1) :=
  ⟨⟨by decide, by decide, by decide⟩,
    pinn_boundary_batches_le 5 4 1 (by decide) (by decide) (by decide)⟩

theorem ceil_div_succ_eq (N d : ℕ) (hd : 0 < d) : ceil_div (N + 1) d = N / d + 1 := by
  unfold ceil_div
  have e : N + 1 + d - 1 = N + d := by omega
  rw [e, Nat.add_div_right _ hd]

theorem kept_step (N d : ℕ) (hd : 0 < d) :
    ceil_div N d + (if N % d = 0 then 1 else 0) = ceil_div (N + 1) d := by
  rw [ceil_div_succ_eq N d hd]
  cases N with
  | zero =>
      simp [ceil_div, Nat.div_eq_of_lt (show d - 1 < d by omega),
        Nat.zero_div, Nat.zero_mod]
  | succ M =>
      rw [ceil_div_succ_eq M d hd, Nat.succ_div]
      by_cases h : d ∣ M + 1
      · rw [if_pos h, if_pos (Nat.mod_eq_zero_of_dvd h)]
      · rw [if_neg h, if_neg (fun hc => h (Nat.dvd_of_mod_eq_zero hc))]

theorem discStepEpochEvents_length (dskip n_batches e : ℕ) :
    (GAN.discStepEpochEvents dskip n_batches e).length
      = if e % dskip = 0 then n_batches else 0 := by
  unfold GAN.discStepEpochEvents
  by_cases h : e % dskip = 0
  · simp only [h, if_true]
    rw [show (fun b => some ((e, b) : ℕ × ℕ)) = some ∘ (fun b => (e, b)) from rfl,
      List.filterMap_eq_map, List.length_map, List.length_range]
  · simp [h]

theorem discStepSchedule_length (n_epochs n_batches dskip : ℕ) (hd : 0 < dskip) :
    (GAN.discStepSchedule n_epochs n_batches dskip).length
      = ceil_div n_epochs dskip * n_batches := by
  induction n_epochs with
  | zero =>
      simp [GAN.discStepSchedule, ceil_div,
        Nat.div_eq_of_lt (show dskip - 1 < dskip by omega)]
  | succ N ih =>
      unfold GAN.discStepSchedule at ih ⊢
      rw [List.range_succ, List.flatMap_append, List.length_append, ih,
        ← kept_step N dskip hd, Nat.add_mul]
      simp [discStepEpochEvents_length]

theorem discStepSchedule_mem (n_epochs n_batches dskip e b : ℕ) :
    (e, b) ∈ GAN.discStepSchedule n_epochs n_batches dskip
      ↔ e < n_epochs ∧ b < n_batches ∧ e % dskip = 0 := by
  unfold GAN.discStepSchedule GAN.discStepEpochEvents
  simp only [List.mem_flatMap, List.mem_filterMap, List.mem_range]
  constructor
  · rintro ⟨a, ha, b', hb', heq⟩
    by_cases h : a % dskip = 0
    · rw [if_pos h] at heq
      obtain ⟨he, hb⟩ : a = e ∧ b' = b := by simpa using heq
      subst he
      subst hb
      exact ⟨ha, hb', h⟩
    · rw [if_neg h] at heq
      exact absurd heq (by simp)
  · rintro ⟨he, hb, hmod⟩
    exact ⟨e, he, ⟨b, hb, by rw [if_pos hmod]⟩⟩

/-- C3: the discriminator optimizer step of GAN.train runs at (epoch, batch)
exactly when the epoch index is below n_epochs, the batch index is below
n_batches, and the epoch index is a multiple of dskip; the total number of
discriminator steps is ceil(n_epochs / dskip) * n_batches. -/
theorem gan_disc_step_cadence (n_epochs n_batches dskip e b : ℕ) (hd : 0 < dskip) :
    ((e, b) ∈ GAN.discStepSchedule n_epochs n_batches dskip
      ↔ e < n_epochs ∧ b < n_batches ∧ e % dskip = 0) ∧
    (GAN.discStepSchedule n_epochs n_batches dskip).length
      = ceil_div n_epochs dskip * n_batches :=
  ⟨discStepSchedule_mem n_epochs n_batches dskip e b,
    discStepSchedule_length n_epochs n_batches dskip hd⟩

theorem gan_disc_step_cadence_witness :
    (0 : ℕ) < 2 ∧
    (((2, 1) ∈ GAN.discStepSchedule 5 3 2 ↔ 2 < 5 ∧ 1 < 3 ∧ 2 % 2 = 0) ∧
      (GAN.discStepSchedule 5 3 2).length = ceil_div 5 2 * 3) :=
  ⟨by decide, gan_disc_step_cadence 5 3 2 2 1 (by decide)⟩

theorem fancyIndex_getD (A : List ℚ) (ind : List ℕ) (i : ℕ) (h : i < ind.length) :
    (fancyIndex A ind).getD i 0 = A.getD (ind.getD i 0) 0 := by
  simp [fancyIndex, List.getD_eq_getElem?_getD, List.getElem?_map,
    List.getElem?_eq_getElem h]

/-- C5: in DeepHPM.train (and for the GAN collocation population), one
epoch permutes every coupled array with the same index sequence ind, so
entry i of each shuffled array is entry ind[i] of the original array -
pointwise alignment across the arrays is preserved. -/
theorem shared_shuffle_alignment (train : HPMTrainSet) (Xcoll Tcoll : List ℚ)
    (ind : List ℕ) (i : ℕ) (h : i < ind.length) :
    ((DeepHPM.shuffleEpoch train ind).xcoll.getD i 0 = train.xcoll.getD (ind.getD i 0) 0 ∧
      (DeepHPM.shuffleEpoch train ind).ycoll.getD i 0 = train.ycoll.getD (ind.getD i 0) 0 ∧
      (DeepHPM.shuffleEpoch train ind).ucoll.getD i 0 = train.ucoll.getD (ind.getD i 0) 0 ∧
      (DeepHPM.shuffleEpoch train ind).vcoll.getD i 0 = train.vcoll.getD (ind.getD i 0) 0 ∧
      (DeepHPM.shuffleEpoch train ind).wcoll.getD i 0 = train.wcoll.getD (ind.getD i 0) 0 ∧
      (DeepHPM.shuffleEpoch train ind).tcoll.getD i 0 = train.tcoll.getD (ind.getD i 0) 0) ∧
    ((GAN.shuffleColl Xcoll Tcoll ind).1.getD i 0 = Xcoll.getD (ind.getD i 0) 0 ∧
      (GAN.shuffleColl Xcoll Tcoll ind).2.getD i 0 = Tcoll.getD (ind.getD i 0) 0) :=
  ⟨⟨fancyIndex_getD _ _ _ h, fancyIndex_getD _ _ _ h, fancyIndex_getD _ _ _ h,
    fancyIndex_getD _ _ _ h, fancyIndex_getD _ _ _ h, fancyIndex_getD _ _ _ h⟩,
    fancyIndex_getD _ _ _ h, fancyIndex_getD _ _ _ h⟩

theorem shared_shuffle_alignment_witness :
    (0 : ℕ) < 2 ∧
    (DeepHPM.shuffleEpoch ⟨[1, 2], [3, 4], [5, 6], [7, 8], [9, 10], [11, 12]⟩ [1, 0]).xcoll.getD 0 0
      = ([1, 2] : List ℚ).getD (([1, 0] : List ℕ).getD 0 0) 0 ∧
    (GAN.shuffleColl [13, 14] [15, 16] [1, 0]).2.getD 0 0
      = ([15, 16] : List ℚ).getD (([1, 0] : List ℕ).getD 0 0) 0 :=
  ⟨by decide,
    (shared_shuffle_alignment ⟨[1, 2], [3, 4], [5, 6], [7, 8], [9, 10], [11, 12]⟩
      [13, 14] [15, 16] [1, 0] 0 (by decide)).1.1,
    (shared_shuffle_alignment ⟨[1, 2], [3, 4], [5, 6], [7, 8], [9, 10], [11, 12]⟩
      [13, 14] [15, 16] [1, 0] 0 (by decide)).2.2⟩

/-- C6: the discriminator loss of GAN.build scores real logits against
label 0 and fake logits against label 1, averaged with factor 1/2 - it is
the textbook discriminator loss with the real and generated batches
swapped - and the generator adversarial loss scores the fake logits
against label 0, the label this convention reserves for real data. -/
theorem gan_disc_labels_inverted (sce : ℚ → ℚ → ℚ) (lr lf : List ℚ) :
    GAN.discLoss sce lr lf = textbookDiscLoss sce lf lr ∧
    GAN.discLoss sce lr lf
      = 1/2 * (reduce_mean (lr.map (fun l => sce l 0))
          + reduce_mean (lf.map (fun l => sce l 1))) ∧
    GAN.genAdvLoss sce lf = reduce_mean (lf.map (fun l => sce l 0)) := by
  refine ⟨?_, rfl, rfl⟩
  unfold GAN.discLoss textbookDiscLoss GAN.discLossReal GAN.discLossFake
  ring

theorem collocAfterEpochs_append_one :
    ∀ (perms : List (List ℕ)) (Xc Tc : List ℚ) (ind : List ℕ),
      GAN.collocAfterEpochs Xc Tc (perms ++ [ind])
        = (fancyIndex (GAN.collocAfterEpochs Xc Tc perms).1 ind,
            fancyIndex (GAN.collocAfterEpochs Xc Tc perms).2 ind)
  | [], _, _, _ => rfl
  | p :: ps, Xc, Tc, ind => by
      show GAN.collocAfterEpochs (fancyIndex Xc p) (fancyIndex Tc p) (ps ++ [ind]) = _
      rw [collocAfterEpochs_append_one ps]
      rfl

/-- C7 counterexample: with three boundary points and batch size one, the
boundary array bound at minibatch 0 is the full array [1, 2, 3], not the
collocation-batch-indexed slice [1] - the boundary data fed to a step is
NOT batched by the collocation-batch indexing. -/
theorem gan_boundary_not_batched_counterexample :
    (GAN.feedForBatch [1, 2, 3] [1, 2, 3] [1, 2, 3] [4, 4, 4] [4, 4, 4] 1 0).Xb
      ≠ ((([1, 2, 3] : List ℚ).drop (0 * 1)).take 1) := by decide

/-- C7 amended: at every epoch and minibatch the GAN feed binds the full,
never-reshuffled boundary arrays (every step sees all boundary points);
the collocation arrays of an epoch are reindexed by that epoch's single
shared permutation (same index sequence for both arrays) and only they
are sliced per minibatch. -/
theorem gan_boundary_fixed_colloc_shuffled
    (Xb_train Tb_train Ub_train Xc Tc : List ℚ) (perms : List (List ℕ))
    (ind : List ℕ) (batch_size b i : ℕ) (hi : i < ind.length) :
    ((GAN.feedForBatch Xb_train Tb_train Ub_train
        (GAN.collocAfterEpochs Xc Tc perms).1
        (GAN.collocAfterEpochs Xc Tc perms).2 batch_size b).Xb = Xb_train ∧
      (GAN.feedForBatch Xb_train Tb_train Ub_train
        (GAN.collocAfterEpochs Xc Tc perms).1
        (GAN.collocAfterEpochs Xc Tc perms).2 batch_size b).Tb = Tb_train ∧
      (GAN.feedForBatch Xb_train Tb_train Ub_train
        (GAN.collocAfterEpochs Xc Tc perms).1
        (GAN.collocAfterEpochs Xc Tc perms).2 batch_size b).Ub = Ub_train) ∧
    ((GAN.collocAfterEpochs Xc Tc (perms ++ [ind])).1.getD i 0
        = (GAN.collocAfterEpochs Xc Tc perms).1.getD (ind.getD i 0) 0 ∧
      (GAN.collocAfterEpochs Xc Tc (perms ++ [ind])).2.getD i 0
        = (GAN.collocAfterEpochs Xc Tc perms).2.getD (ind.getD i 0) 0) ∧
    (GAN.feedForBatch Xb_train Tb_train Ub_train
        (GAN.collocAfterEpochs Xc Tc perms).1
        (GAN.collocAfterEpochs Xc Tc perms).2 batch_size b).Xcoll
      = ((GAN.collocAfterEpochs Xc Tc perms).1.drop (b * batch_size)).take batch_size := by
  refine ⟨⟨rfl, rfl, rfl⟩, ⟨?_, ?_⟩, rfl⟩
  · rw [collocAfterEpochs_append_one]
    exact fancyIndex_getD _ _ _ hi
  · rw [collocAfterEpochs_append_one]
    exact fancyIndex_getD _ _ _ hi

theorem gan_boundary_fixed_colloc_shuffled_witness :
    (0 : ℕ) < 2 ∧
    (GAN.feedForBatch [1, 2] [1, 2] [1, 2]
        (GAN.collocAfterEpochs [3, 4] [5, 6] [[1, 0]]).1
        (GAN.collocAfterEpochs [3, 4] [5, 6] [[1, 0]]).2 1 1).Xb = [1, 2] ∧
    (GAN.collocAfterEpochs [3, 4] [5, 6] ([[1, 0]] ++ [[1, 0]])).1.getD 0 0
      = (GAN.collocAfterEpochs [3, 4] [5, 6] [[1, 0]]).1.getD (([1, 0] : List ℕ).getD 0 0) 0 :=
  ⟨by decide,
    (gan_boundary_fixed_colloc_shuffled [1, 2] [1, 2] [1, 2] [3, 4] [5, 6]
      [[1, 0]] [1, 0] 1 1 0 (by decide)).1.1,
    (gan_boundary_fixed_colloc_shuffled [1, 2] [1, 2] [1, 2] [3, 4] [5, 6]
      [[1, 0]] [1, 0] 1 1 0 (by decide)).2.1.1⟩

/-- C8: the PINN training op updates only the variables in the solution
network's trainable set, so after any sequence of training steps every
variable of the supplied physics model (which is not in that set) still
holds its initial value. -/
theorem pinn_physics_vars_frozen (vars : PINNVars) (upds : List (String → ℚ → ℚ))
    (store : String → ℚ) (v : String)
    (hphys : v ∈ vars.physicsTrainable)
    (hnot : v ∉ vars.solutionTrainable) :
    PINN.runSteps vars upds store v = store v := by
  induction upds generalizing store with
  | nil => rfl
  | cons u rest ih =>
      calc PINN.runSteps vars (u :: rest) store v
          = PINN.runSteps vars rest (PINN.trainOp vars u store) v := rfl
        _ = PINN.trainOp vars u store v := ih _
        _ = store v := by unfold PINN.trainOp optimizerStep; rw [if_neg hnot]

theorem pinn_physics_vars_frozen_witness :
    "p1" ∈ (PINNVars.mk ["s1"] ["p1"]).physicsTrainable ∧
    "p1" ∉ (PINNVars.mk ["s1"] ["p1"]).solutionTrainable ∧
    PINN.runSteps (PINNVars.mk ["s1"] ["p1"]) [fun _ x => x + 1] (fun _ => 0) "p1"
      = (fun _ => (0 : ℚ)) "p1" :=
  ⟨by decide, by decide,
    pinn_physics_vars_frozen (PINNVars.mk ["s1"] ["p1"]) [fun _ x => x + 1]
      (fun _ => 0) "p1" (by decide) (by decide)⟩

theorem discLossAt_eq (discMean : ℕ → ℚ) (dskip : ℕ) (hd : 0 < dskip) :
    ∀ e, GAN.discLossAt discMean dskip e = discMean (dskip * (e / dskip))
  | 0 => by
      simp only [GAN.discLossAt]
      rw [if_pos (Nat.zero_mod dskip), Nat.zero_div, Nat.mul_zero]
  | e + 1 => by
      simp only [GAN.discLossAt]
      by_cases h : (e + 1) % dskip = 0
      · rw [if_pos h, Nat.mul_div_cancel' (Nat.dvd_of_mod_eq_zero h)]
      · rw [if_neg h, discLossAt_eq discMean dskip hd e]
        have hdiv : (e + 1) / dskip = e / dskip := by
          rw [Nat.succ_div, if_neg (fun hdvd => h (Nat.mod_eq_zero_of_dvd hdvd))]
          omega
        rw [hdiv]

/-- C9: for a skipped epoch e (e % dskip not 0), row e of the losses array
holds a stale value: the mean discriminator loss computed at epoch
dskip * (e / dskip), which is a multiple of dskip, lies strictly before e,
and is the most recent such epoch (the next multiple exceeds e). -/
theorem gan_stale_disc_loss (discMean : ℕ → ℚ) (dskip n_epochs e : ℕ)
    (hd : 0 < dskip) (he : e < n_epochs) (hskip : e % dskip ≠ 0) :
    (GAN.lossRowsDisc discMean dskip n_epochs).getD e 0
        = discMean (dskip * (e / dskip)) ∧
    dskip * (e / dskip) < e ∧
    (dskip * (e / dskip)) % dskip = 0 ∧
    e < dskip * (e / dskip) + dskip := by
  have hdm : dskip * (e / dskip) + e % dskip = e := Nat.div_add_mod e dskip
  have hmod : e % dskip < dskip := Nat.mod_lt e hd
  refine ⟨?_, by omega, Nat.mul_mod_right dskip _, by omega⟩
  unfold GAN.lossRowsDisc
  rw [List.getD_eq_getElem?_getD, List.getElem?_map, List.getElem?_range he]
  exact discLossAt_eq discMean dskip hd e

theorem gan_stale_disc_loss_witness :
    (0 : ℕ) < 2 ∧ 3 < 4 ∧ 3 % 2 ≠ 0 ∧
    ((GAN.lossRowsDisc (fun k => (k : ℚ)) 2 4).getD 3 0 = ((2 * (3 / 2) : ℕ) : ℚ) ∧
      2 * (3 / 2) < 3 ∧ (2 * (3 / 2)) % 2 = 0 ∧ 3 < 2 * (3 / 2) + 2) :=
  ⟨by decide, by decide, by decide,
    gan_stale_disc_loss (fun k => (k : ℚ)) 2 4 3 (by decide) (by decide) (by decide)⟩

/-- C10: the per-sample assignments of GAN.predict are shape-valid exactly
when the encoder latent dimension is 1: for latent_dim > 1 the squeezed
latent batch cannot be broadcast into a row of the (n_samples, X.size)
output buffer and predict fails. -/
theorem gan_predict_requires_scalar_latent (n_points latent_dim : ℕ)
    (hn : 0 < n_points) :
    (GAN.predictAssignOK n_points latent_dim = true ↔ latent_dim = 1) := by
  by_cases hn1 : n_points = 1
  · subst hn1
    by_cases hL1 : latent_dim = 1
    · subst hL1
      decide
    · have hLb : (latent_dim != 1) = true := by simpa using hL1
      simp [GAN.predictAssignOK, npSqueeze, broadcastAssign, broadcastAssignRev,
        List.filter, hLb, hL1]
  · have hnb : (n_points != 1) = true := by simpa using hn1
    by_cases hL1 : latent_dim = 1
    · subst hL1
      simp [GAN.predictAssignOK, npSqueeze, broadcastAssign, broadcastAssignRev,
        List.filter, hnb]
    · have hLb : (latent_dim != 1) = true := by simpa using hL1
      simp [GAN.predictAssignOK, npSqueeze, broadcastAssign, broadcastAssignRev,
        List.filter, hnb, hLb, hL1]

theorem gan_predict_requires_scalar_latent_witness :
    (0 : ℕ) < 3 ∧ (GAN.predictAssignOK 3 2 = true ↔ 2 = 1) :=
  ⟨by decide, gan_predict_requires_scalar_latent 3 2 (by decide)⟩
